import Mathlib

/-!
Verification of the derivative-image engine of `django-imagefield`
(files `imagefield/fields.py` and
`imagefield/management/commands/process_all_imagefields.py`).

The development shallowly embeds the functions the claims are about:

* `urlhash`, `ImageFieldFile._processed_name`, `_processed_base` — the
  derivative key / path resolver (SHA-1 over UTF-8 text, base64url-encoded
  without padding, as Django's `urlsafe_base64_encode` produces);
* `ImageFieldFile._ppoi` — PPOI parsing (Python `float()` on the pieces of
  the stored `"<x>x<y>"` string);
* `ImageFieldFile.process` — derivative generation over an abstract storage
  backend, with an operation trace recording the order of storage and
  image-pipeline effects;
* `ImageFieldFile.__getattr__` — attribute-style derivative URL access;
* `ImageField._clear_generated_files` — the post-delete cleanup hook;
* `Command._make_filter` / `Command._skip_field` / the record loop of
  `Command.handle` — the batch regeneration command.

Machine integers do not occur: Python's ints are unbounded, floats are
modelled as rationals, and the 32-bit arithmetic inside SHA-1 is `Nat`
arithmetic with explicit `% 2^32`.
-/

namespace Imagefield

/-- Python exception kinds that the modelled code can raise. -/
inductive PyErr
  | valueError
  | nameError
  | typeError
  | attributeError
  | decodeError
deriving DecidableEq, Repr

/-- Decidable equality of `Except` values (kernel-computable, so concrete
outcomes of the fallible operations can be settled by `decide`). -/
instance {ε α : Type} [DecidableEq ε] [DecidableEq α] : DecidableEq (Except ε α) :=
  fun x y =>
    match x, y with
    | .ok a, .ok b =>
      if h : a = b then .isTrue (h ▸ rfl) else .isFalse (fun hc => h (Except.ok.inj hc))
    | .error e, .error f =>
      if h : e = f then .isTrue (h ▸ rfl) else .isFalse (fun hc => h (Except.error.inj hc))
    | .ok _, .error _ => .isFalse (fun hc => nomatch hc)
    | .error _, .ok _ => .isFalse (fun hc => nomatch hc)

/-! ## UTF-8

`str.encode('utf-8')`: the byte sequence of a Python string, one code point
at a time. -/

/-- UTF-8 encoding of a single code point. -/
def utf8Char (c : Char) : List Nat :=
  let n := c.toNat
  if n < 0x80 then [n]
  else if n < 0x800 then [0xC0 ||| (n >>> 6), 0x80 ||| (n &&& 0x3F)]
  else if n < 0x10000 then
    [0xE0 ||| (n >>> 12), 0x80 ||| ((n >>> 6) &&& 0x3F), 0x80 ||| (n &&& 0x3F)]
  else
    [0xF0 ||| (n >>> 18), 0x80 ||| ((n >>> 12) &&& 0x3F),
     0x80 ||| ((n >>> 6) &&& 0x3F), 0x80 ||| (n &&& 0x3F)]

/-- `s.encode('utf-8')` as a list of bytes. -/
def utf8 (s : String) : List Nat := s.data.flatMap utf8Char

/-! ## SHA-1 (FIPS 180-4) over a list of bytes

Used by `urlhash` (fields.py lines 24-26):
`hashlib.sha1(str.encode('utf-8')).digest()`. -/

/-- `2^32`; all SHA-1 word arithmetic is reduced modulo this. -/
def w32 : Nat := 4294967296

/-- Rotate a 32-bit word left by `s` bits. -/
def rotl (s n : Nat) : Nat := ((n <<< s) ||| (n >>> (32 - s))) % w32

/-- The five 32-bit words of the SHA-1 chaining state. -/
structure Sha1State where
  a0 : Nat
  a1 : Nat
  a2 : Nat
  a3 : Nat
  a4 : Nat
deriving DecidableEq, Repr

/-- SHA-1 initial chaining values. -/
def sha1Init : Sha1State :=
  ⟨0x67452301, 0xEFCDAB89, 0x98BADCFE, 0x10325476, 0xC3D2E1F0⟩

/-- The 8-byte big-endian encoding of the message bit length. -/
def lengthBytes (n : Nat) : List Nat :=
  [(n >>> 56) &&& 255, (n >>> 48) &&& 255, (n >>> 40) &&& 255, (n >>> 32) &&& 255,
   (n >>> 24) &&& 255, (n >>> 16) &&& 255, (n >>> 8) &&& 255, n &&& 255]

/-- SHA-1 padding: `0x80`, zeros up to 56 mod 64, then the bit length. -/
def sha1Pad (msg : List Nat) : List Nat :=
  let l := msg.length
  msg ++ [0x80] ++ List.replicate ((119 - (l % 64)) % 64) 0 ++ lengthBytes (l * 8)

/-- Big-endian grouping of bytes into 32-bit words. -/
def bytesToWords : List Nat → List Nat
  | b0 :: b1 :: b2 :: b3 :: rest =>
    ((b0 <<< 24) ||| (b1 <<< 16) ||| (b2 <<< 8) ||| b3) :: bytesToWords rest
  | _ => []

/-- Round constants. -/
def sha1K (t : Nat) : Nat :=
  if t < 20 then 0x5A827999
  else if t < 40 then 0x6ED9EBA1
  else if t < 60 then 0x8F1BBCDC
  else 0xCA62C1D6

/-- Round functions (`Ch`, `Parity`, `Maj`, `Parity`). -/
def sha1F (t b c d : Nat) : Nat :=
  if t < 20 then (b &&& c) ||| ((b ^^^ 0xFFFFFFFF) &&& d)
  else if t < 40 then b ^^^ c ^^^ d
  else if t < 60 then (b &&& c) ||| (b &&& d) ||| (c &&& d)
  else b ^^^ c ^^^ d

/-- Message schedule: the 16 block words extended to 80. -/
def schedule (ws : List Nat) : List Nat :=
  (List.range 80).foldl
    (fun acc t =>
      if t < 16 then acc ++ [ws.getD t 0]
      else acc ++ [rotl 1 (acc.getD (t - 3) 0 ^^^ acc.getD (t - 8) 0 ^^^
                           acc.getD (t - 14) 0 ^^^ acc.getD (t - 16) 0)])
    []

/-- Compression of one 64-byte block into the chaining state. -/
def sha1Block (st : Sha1State) (block : List Nat) : Sha1State :=
  let ws := schedule (bytesToWords block)
  let r := (List.range 80).foldl
    (fun (v : Nat × Nat × Nat × Nat × Nat) t =>
      let (a, b, c, d, e) := v
      let tmp := (rotl 5 a + sha1F t b c d + e + sha1K t + ws.getD t 0) % w32
      (tmp, a, rotl 30 b, c, d))
    (st.a0, st.a1, st.a2, st.a3, st.a4)
  ⟨(st.a0 + r.1) % w32, (st.a1 + r.2.1) % w32, (st.a2 + r.2.2.1) % w32,
   (st.a3 + r.2.2.2.1) % w32, (st.a4 + r.2.2.2.2) % w32⟩

/-- Split a byte list into 64-byte chunks.  The fuel argument (instantiated
with the list length, which bounds the number of chunks) keeps the recursion
structural, so that the kernel can evaluate it. -/
def chunks64Aux : Nat → List Nat → List (List Nat)
  | _, [] => []
  | 0, _ => []
  | fuel + 1, l => l.take 64 :: chunks64Aux fuel (l.drop 64)

/-- Split a byte list into 64-byte chunks. -/
def chunks64 (l : List Nat) : List (List Nat) := chunks64Aux l.length l

/-- The SHA-1 chaining state after absorbing the whole padded message. -/
def sha1Words (msg : List Nat) : Sha1State :=
  (chunks64 (sha1Pad msg)).foldl sha1Block sha1Init

/-- The low byte of a word, as a `Fin 256`. -/
def byteFin (n : Nat) : Fin 256 :=
  ⟨n &&& 255, lt_of_le_of_lt Nat.and_le_right (by norm_num)⟩

/-- Big-endian bytes of one 32-bit word. -/
def wordFins (w : Nat) : List (Fin 256) :=
  [byteFin (w >>> 24), byteFin (w >>> 16), byteFin (w >>> 8), byteFin w]

/-- The 20 digest bytes of a final chaining state. -/
def digestFins (st : Sha1State) : List (Fin 256) :=
  wordFins st.a0 ++ wordFins st.a1 ++ wordFins st.a2 ++ wordFins st.a3 ++ wordFins st.a4

/-- `hashlib.sha1(msg).digest()`: the 20-byte SHA-1 digest. -/
def sha1 (msg : List Nat) : List Nat := (digestFins (sha1Words msg)).map Fin.val

/-- The 20 digest bytes bundled with their length, for counting arguments. -/
def digestVec (st : Sha1State) : Mathlib.Vector (Fin 256) 20 :=
  ⟨digestFins st, by simp [digestFins, wordFins]⟩

/-! ## base64url without padding

Django's `urlsafe_base64_encode(s)` is `base64.urlsafe_b64encode(s)` with the
trailing `=` padding stripped (`.rstrip(b'\n=')`); the encoder below emits the
unpadded form directly: 4 characters per 3-byte group, 3 characters for a
trailing 2-byte group, 2 characters for a trailing single byte. -/

/-- The base64url alphabet (`+``/` replaced by `-``_`). -/
def b64alphabet : List Char :=
  "ABCDEFGHIJKLMNOPQRSTUVWXYZabcdefghijklmnopqrstuvwxyz0123456789-_".data

/-- The alphabet character of a sextet value. -/
def b64c (n : Nat) : Char := b64alphabet.getD (n % 64) 'A'

/-- Unpadded base64url encoding of a byte list. -/
def b64encode : List Nat → List Char
  | b0 :: b1 :: b2 :: rest =>
    let n := b0 * 65536 + b1 * 256 + b2
    b64c (n / 262144) :: b64c (n / 4096) :: b64c (n / 64) :: b64c n :: b64encode rest
  | [b0, b1] =>
    let n := b0 * 1024 + b1 * 4
    [b64c (n / 4096), b64c (n / 64), b64c n]
  | [b0] =>
    let n := b0 * 16
    [b64c (n / 64), b64c n]
  | [] => []

/-- Sextet value of an alphabet character. -/
def b64v (c : Char) : Nat := b64alphabet.indexOf c

/-- Decoder for unpadded base64url, inverse of `b64encode` on byte lists. -/
def b64dec : List Char → List Nat
  | c1 :: c2 :: c3 :: c4 :: rest =>
    let n := b64v c1 * 262144 + b64v c2 * 4096 + b64v c3 * 64 + b64v c4
    n / 65536 :: n / 256 % 256 :: n % 256 :: b64dec rest
  | [c1, c2, c3] =>
    let n := b64v c1 * 4096 + b64v c2 * 64 + b64v c3
    [n / 1024, n / 4 % 256]
  | [c1, c2] => [(b64v c1 * 64 + b64v c2) / 16]
  | _ => []

/-- fields.py lines 24-26:
`urlhash(str) = urlsafe_base64_encode(hashlib.sha1(str.encode('utf-8')).digest()).decode('ascii')`. -/
def urlhash (s : String) : String := String.mk (b64encode (sha1 (utf8 s)))

/-! ## Python `float()` and `repr` of floats, on rationals

`ImageFieldFile._ppoi` applies `float` to each piece of the stored PPOI
string, and `_processed_name` renders the resulting list back through
`str(list)`.  Floats are modelled as rationals; `float('inf')`/`float('nan')`
and digit-group underscores, which no claim touches, are out of scope. -/

/-- Euclid's algorithm with explicit fuel (so the recursion is structural and
the kernel can evaluate it — core's `Nat.gcd` is well-founded recursion, which
the kernel does not unfold) together with a certificate that it computes
`Nat.gcd`. -/
def gcdAuxC : (fuel m n : Nat) → m ≤ fuel → {g : Nat // g = Nat.gcd m n}
  | _, 0, n, _ => ⟨n, (Nat.gcd_zero_left n).symm⟩
  | fuel + 1, m + 1, n, h =>
    let r := gcdAuxC fuel (n % (m + 1)) (m + 1)
      (Nat.le_of_lt_succ (Nat.lt_of_lt_of_le (Nat.mod_lt n (Nat.succ_pos m)) h))
    ⟨r.1, r.2.trans (Nat.gcd_rec (m + 1) n).symm⟩
  | 0, m + 1, _, h => (Nat.not_succ_le_zero m h).elim

/-- A kernel-computable version of `mkRat`: builds the normalized rational
`num / den`, dividing out the gcd exactly as `Rat.normalize` does (proved
equal to `mkRat` in `ratOfNd_eq_mkRat` below). -/
def ratOfNd (num : Int) (den : Nat) : Rat :=
  if den_nz : den = 0 then { num := 0 } else
    let g := gcdAuxC num.natAbs num.natAbs den (Nat.le_refl _)
    Rat.maybeNormalize num den g.1
      (Rat.normalize.den_nz den_nz g.2) (Rat.normalize.reduced den_nz g.2)

/-- Python `str.strip()` as used by `float()`: remove leading and trailing
whitespace (code-point-wise, like Python). -/
def pyStrip (l : List Char) : List Char :=
  ((l.dropWhile Char.isWhitespace).reverse.dropWhile Char.isWhitespace).reverse

/-- Python `str.split(sep)` for a one-character separator `c`
(code-point-wise; `''.split(c) = ['']`). -/
def splitChar (c : Char) : List Char → List (List Char)
  | [] => [[]]
  | x :: xs =>
    let r := splitChar c xs
    if x == c then [] :: r
    else
      match r with
      | h :: t => (x :: h) :: t
      | [] => [[x]]

/-- Python `str.lower()` (code-point-wise). -/
def pyLower (s : String) : String := String.mk (s.data.map Char.toLower)

/-- Numeric value of a digit run. -/
def digitsToNat (l : List Char) : Nat :=
  l.foldl (fun a c => a * 10 + (c.toNat - 48)) 0

/-- Application of the exponent digits to an unsigned mantissa `n / d`:
a positive exponent multiplies the numerator, a negative one the
denominator.  Rejects an empty or non-digit exponent run. -/
def expApply (n d : Nat) (pos : Bool) (r : List Char) : Option (Nat × Nat) :=
  let ds := r.takeWhile Char.isDigit
  if ds.isEmpty ∨ ¬(r.dropWhile Char.isDigit).isEmpty then none
  else if pos then some (n * 10 ^ digitsToNat ds, d)
  else some (n, d * 10 ^ digitsToNat ds)

/-- Optional exponent suffix `e`/`E` with optional sign, ending the literal. -/
def parseExpPart (n d : Nat) : List Char → Option (Nat × Nat)
  | [] => some (n, d)
  | c :: rest =>
    if c = 'e' ∨ c = 'E' then
      match rest with
      | '+' :: r => expApply n d true r
      | '-' :: r => expApply n d false r
      | r => expApply n d true r
    else none

/-- The unsigned body of a float literal — `digits`, `digits.digits`,
`digits.`, or `.digits`, then an optional exponent — as an exact fraction
(numerator, power-of-ten denominator). -/
def parseBody (l : List Char) : Option (Nat × Nat) :=
  let ip := l.takeWhile Char.isDigit
  let r1 := l.dropWhile Char.isDigit
  match r1 with
  | '.' :: r2 =>
    let fp := r2.takeWhile Char.isDigit
    let r3 := r2.dropWhile Char.isDigit
    if ip.isEmpty && fp.isEmpty then none
    else parseExpPart (digitsToNat ip * 10 ^ fp.length + digitsToNat fp) (10 ^ fp.length) r3
  | _ => if ip.isEmpty then none else parseExpPart (digitsToNat ip) 1 r1

/-- Python `float(s)`: strip whitespace, optional sign, numeric body;
anything else raises `ValueError` (e.g. `float('')`).  The resulting float
value is modelled by the exact rational value of the decimal literal
(`float('inf')`/`float('nan')` and digit-group underscores, which no claim
touches, are out of scope). -/
def pyFloat (s : String) : Except PyErr Rat :=
  let l := pyStrip s.data
  let signed : Bool × List Char :=
    match l with
    | '+' :: r => (false, r)
    | '-' :: r => (true, r)
    | r => (false, r)
  match parseBody signed.2 with
  | some nd => .ok (ratOfNd (if signed.1 then -(nd.1 : Int) else (nd.1 : Int)) nd.2)
  | none => .error .valueError

/-- Python `repr` of a float whose value is the rational `q` (`Rat` values
are kept normalized, so the sign test on the numerator and the
smallest-exact-decimal search match Python's shortest round-trip repr on
every decimally exact float such as `0.5`, `0.25`, `1.0`): sign, integer
part, `'.'`, fractional digits (a single `'0'` when the value is integral).
Rationals without a finite decimal expansion, which do not arise from the
claims' float values, fall back to a fraction rendering. -/
def pyFloatRepr (q : Rat) : String :=
  let sign := if q.num < 0 then "-" else ""
  let n := q.num.natAbs
  let d := q.den
  match (List.range 40).find? (fun k => 10 ^ k % d == 0) with
  | some k =>
    let scaled := n * 10 ^ k / d
    let ip := scaled / 10 ^ k
    let fp := scaled % 10 ^ k
    let fpStr :=
      let s := toString fp
      String.mk (List.replicate (k - s.length) '0') ++ s
    sign ++ toString ip ++ "." ++ (if k == 0 then "0" else fpStr)
  | none => sign ++ toString n ++ "/" ++ toString d

/-- Python `str` of a list of floats, e.g. `"[0.5, 0.5]"` — the rendering of
the PPOI used in `_processed_name`. -/
def ppoiRendering (ppoi : List Rat) : String :=
  "[" ++ String.intercalate ", " (ppoi.map pyFloatRepr) ++ "]"

/-- `'|'.join(str(p) for p in processors)` (fields.py line 50).  Processor
descriptors are modelled by their `str` rendering, so the join is over the
strings themselves. -/
def specSerialization (processors : List String) : String :=
  String.intercalate "|" processors

/-! ## `os.path.splitext` (posix) -/

/-- Index of the last occurrence of a character,`rfind`-style. -/
def rfindIdx (c : Char) : List Char → Option Nat
  | [] => none
  | x :: xs =>
    match rfindIdx c xs with
    | some i => some (i + 1)
    | none => if x == c then some 0 else none

/-- The split position of `os.path.splitext`: the index of the last `'.'`,
provided it lies inside the final path component and at least one non-dot
character of that component precedes it (so `'.bashrc'` has no extension). -/
def splitextIdx (l : List Char) : Option Nat :=
  match rfindIdx '.' l with
  | none => none
  | some d =>
    let start := match rfindIdx '/' l with | none => 0 | some i => i + 1
    let inBase : Bool := match rfindIdx '/' l with | none => true | some i => decide (i < d)
    if inBase && ((l.drop start).take (d - start)).any (fun ch => ch != '.') then some d
    else none

/-- `os.path.splitext`: `(root, ext)`, splitting at `splitextIdx`. -/
def splitext (s : String) : String × String :=
  match splitextIdx s.data with
  | none => (s, "")
  | some d => (String.mk (s.data.take d), String.mk (s.data.drop d))

/-! ## The path resolver (fields.py lines 47-58) -/

/-- `ImageFieldFile._processed_name(processors)` (fields.py lines 47-54):

    p1 = urlhash(self.name)
    p2 = urlhash('|'.join(str(p) for p in processors) + '|' + str(self._ppoi()))
    _, ext = os.path.splitext(self.name)
    return '__processed__/%s/%s_%s%s' % (p1[:2], p1[2:], p2, ext)

The `%`-formatting is concatenation; Python string slicing is by code point,
`List.take`/`List.drop` on the character list.  The parsed PPOI value
(`self._ppoi()`'s result) is passed in as `ppoi`. -/
def _processed_name (name : String) (processors : List String) (ppoi : List Rat) : String :=
  let p1 := urlhash name
  let p2 := urlhash (specSerialization processors ++ "|" ++ ppoiRendering ppoi)
  let ext := (splitext name).2
  String.mk ("__processed__/".data ++ p1.data.take 2 ++ "/".data ++
             p1.data.drop 2 ++ "_".data ++ p2.data ++ ext.data)

/-- `ImageFieldFile._processed_base()` (fields.py lines 56-58): the shard
directory and the per-source filename prefix,
`('__processed__/%s' % p1[:2], '%s_' % p1[2:])`. -/
def _processed_base (name : String) : String × String :=
  let p1 := urlhash name
  (String.mk ("__processed__/".data ++ p1.data.take 2),
   String.mk (p1.data.drop 2 ++ "_".data))

/-- `ImageFieldFile._ppoi()` (fields.py lines 39-45): when a `ppoi_field` is
configured, split that field's string value on `'x'` and apply `float` to
every piece (any piece `float` rejects raises `ValueError`); otherwise return
`[0.5, 0.5]`. -/
def _ppoi (ppoi_field : Option String) (ppoiValue : String) : Except PyErr (List Rat) :=
  match ppoi_field with
  | some _ => (splitChar 'x' ppoiValue.data).mapM (fun piece => pyFloat (String.mk piece))
  | none => .ok [ratOfNd 1 2, ratOfNd 1 2]

/-! ## Storage backend model

A Django storage is modelled as an association list from path to content
bytes, together with a trace of the operations a call performed. -/

/-- Storage contents: path to bytes. -/
abbrev Storage := List (String × List Nat)

/-- `storage.exists(path)`. -/
def storageExists (st : Storage) (p : String) : Bool :=
  st.any (fun e => e.1 == p)

/-- `storage.delete(path)` (removes the entry when present). -/
def storageDelete (st : Storage) (p : String) : Storage :=
  st.filter (fun e => e.1 != p)

/-- `storage.save(path, content)`: after the preceding `delete`, the name is
free, so the file is stored at exactly `path`. -/
def storageSave (st : Storage) (p : String) (bytes : List Nat) : Storage :=
  (p, bytes) :: storageDelete st p

/-- Content at a path, if any. -/
def storageLookup (st : Storage) (p : String) : Option (List Nat) :=
  (st.find? (fun e => e.1 == p)).map (·.2)

/-- One observable effect of `ImageFieldFile.process`, in order. -/
inductive Op
  | existsCheck (p : String)
  | openSrc
  | decodeOp
  | pipelineOp
  | encodeOp
  | deleteOp (p : String)
  | saveOp (p : String)
deriving DecidableEq, Repr

/-- The transform context threaded through the pipeline:
`SimpleNamespace(ppoi=..., save_kwargs={})`. -/
structure Ctx where
  ppoi : List Rat
  save_kwargs : List (String × String)

/-- Result of a `process` call: final storage, the trace of effects in the
order they happened, and the Python-level outcome. -/
structure ProcResult where
  storage : Storage
  ops : List Op
  result : Except PyErr Unit

/-- `ImageFieldFile.process(item, force=False)` (fields.py lines 60-84):

    processors = self.field.formats[item]
    target = self._processed_name(processors)
    if not force and self.storage.exists(target):
        return
    with self.open('rb') as orig:
        image = Image.open(orig)
        context = SimpleNamespace(ppoi=self._ppoi(), save_kwargs={})
        format = image.format
        handler = build_handler(processors)
        image, context = handler(image, context)
        with io.BytesIO() as buf:
            image.save(buf, format=format, **context.save_kwargs)
            self.storage.delete(target)
            self.storage.save(target, ContentFile(buf.getvalue()))

`Image.open`/`image.save` (PIL) and `build_handler` (imagefield/processing.py,
not among the given source files) are opaque to the claims, so the decoder,
the composed pipeline handler and the encoder are parameters, quantified over
in the theorems; `decodeImage` returns the decoded image and its
`image.format`, or `none` when PIL raises on undecodable bytes.  Note that
Python's `and` short-circuits: with `force=True` the `storage.exists` call
never happens. -/
def process {Img : Type} (decodeImage : List Nat → Option (Img × String))
    (handler : Img → Ctx → Img × Ctx)
    (encodeImage : Img → String → List (String × String) → List Nat)
    (name : String) (processors : List String) (ppoi : List Rat)
    (sourceBytes : List Nat) (force : Bool) (st : Storage) : ProcResult :=
  let target := _processed_name name processors ppoi
  if !force && storageExists st target then
    ⟨st, [.existsCheck target], .ok ()⟩
  else
    let checkOps : List Op := if force then [] else [.existsCheck target]
    match decodeImage sourceBytes with
    | none => ⟨st, checkOps ++ [.openSrc], .error .decodeError⟩
    | some (img, format) =>
      let context : Ctx := ⟨ppoi, []⟩
      let r := handler img context
      let bytes := encodeImage r.1 format r.2.save_kwargs
      ⟨storageSave (storageDelete st target) target bytes,
       checkOps ++ [.openSrc, .decodeOp, .pipelineOp, .encodeOp,
                    .deleteOp target, .saveOp target],
       .ok ()⟩

/-! ## Attribute-style derivative access (fields.py lines 29-37) -/

/-- Python attribute lookup on an `ImageFieldFile`, combining the instance
`__dict__` (ordinary attributes, where `setattr` caches) with
`ImageFieldFile.__getattr__`, which Python invokes only when ordinary lookup
fails:

    def __getattr__(self, item):
        if item in self.field.formats:
            url = self.storage.url(self._processed_name(self.field.formats[item]))
            setattr(self, item, url)
            return url
        raise AttributeError

The returned triple is (attribute value, instance `__dict__` afterwards,
paths passed to `storage.url` during the access). -/
def getattrLookup (storage_url : String → String)
    (formats : List (String × List String)) (name : String) (ppoi : List Rat)
    (dict : List (String × String)) (item : String) :
    Except PyErr (String × List (String × String) × List String) :=
  match (dict.find? (fun e => e.1 == item)).map (·.2) with
  | some v => .ok (v, dict, [])
  | none =>
    match (formats.find? (fun e => e.1 == item)).map (·.2) with
    | some procs =>
      let url := storage_url (_processed_name name procs ppoi)
      .ok (url, (item, url) :: dict, [_processed_name name procs ppoi])
    | none => .error .attributeError

/-! ## The post-delete cleanup hook (fields.py lines 149-155) -/

/-- `ImageField._clear_generated_files(instance, **kwargs)`:

    @staticmethod
    def _clear_generated_files(instance, **kwargs):
        f = getattr(instance, self.name)
        folder, startswith = f._processed_name()
        for file in f.storage.listdir(folder):
            if file.startswith(startswith):
                f.storage.delete(file)

The method is declared `@staticmethod`, so `self` is not a bound name in its
body; evaluating `self.name` in the very first statement raises `NameError`
before any storage operation.  (Even with `self` in scope the next line calls
`_processed_name()` without its required `processors` argument — a
`TypeError` — where the otherwise-unused `_processed_base()` was evidently
intended.)  Hence the model: the hook raises and leaves storage untouched. -/
def _clear_generated_files (st : Storage) : Storage × Except PyErr Unit :=
  (st, .error .nameError)

/-! ## The batch command (process_all_imagefields.py) -/

/-- The filter mapping `'app.model' -> field-name list`; Python's `None`
(process everything) is `Option.none`. -/
abbrev FieldFilter := List (String × List String)

/-- Python dict assignment `d[k] = v` on the association-list model
(last write wins). -/
def dictSet (d : FieldFilter) (k : String) (v : List String) : FieldFilter :=
  (k, v) :: d.filter (fun e => e.1 != k)

/-- `Command._make_filter(fields)` (lines 23-30):

    if not fields:
        self._filter = None
    self._filter = {}
    for field in fields:
        parts = field.lower().split('.')
        self._filter['.'.join(parts[:2])] = parts[2:]

The `self._filter = None` branch is missing a `return`, so the assignment
below it runs unconditionally and `self._filter` always ends up being the
dict — for an empty `fields` list, the empty dict, never `None`. -/
def _make_filter (fields : List String) : Option FieldFilter :=
  some (fields.foldl
    (fun acc field =>
      let parts := (splitChar '.' (pyLower field).data).map String.mk
      dictSet acc (String.intercalate "." (parts.take 2)) (parts.drop 2))
    [])

/-- `Command._skip_field(field)` (lines 32-37), with the field's
`model._meta.label_lower` and `field.name` passed explicitly:

    if self._filter is None:
        return False          — process all fields
    fields = self._filter.get(field.model._meta.label_lower)
    return fields is None or (fields and field.name not in fields)

The final expression is Python truthiness: an empty `fields` list makes the
conjunction falsy, so the field is processed. -/
def _skip_field (filt : Option FieldFilter) (label_lower : String)
    (fieldName : String) : Bool :=
  match filt with
  | none => false
  | some d =>
    match (d.find? (fun e => e.1 == label_lower)).map (·.2) with
    | none => true
    | some fs => !fs.isEmpty && !(fs.contains fieldName)

/-- One record of the queryset in `Command.handle`: the field file's `name`
(`if fieldfile and fieldfile.name:` — Django `FieldFile.__bool__` is
`bool(self.name)`, so both tests reduce to the name being non-empty) and the
outcome `fieldfile.process(key, force=...)` would have for each format key
and force flag. -/
structure BatchRecord where
  name : String
  procOutcome : String → Bool → Except PyErr Unit

/-- The per-record body of the loop in `Command.handle` (lines 53-60): for a
record with a non-empty file name, every format key is attempted in order,
and `except Exception: pass` swallows each failure — recorded as a `false`
flag instead of propagating.

    fieldfile = getattr(instance, field.name)
    if fieldfile and fieldfile.name:
        for key in field.formats:
            try:
                fieldfile.process(key, force=options.get('force'))
            except Exception:
                pass
-/
def tryProcessFormats (formats : List String) (force : Bool) (i : Nat)
    (r : BatchRecord) : List (Nat × String × Bool) :=
  if r.name ≠ "" then
    formats.map fun k =>
      match r.procOutcome k force with
      | .ok _ => (i, k, true)
      | .error _ => (i, k, false)
  else []

/-- The record loop of `Command.handle` for one field: iterate the whole
queryset in order; an uncaught exception inside the fold would abort it with
`.error`, which is what the claim denies can happen.  Returns the attempted
(record index, format key, succeeded) triples. -/
def handleField (formats : List String) (records : List BatchRecord)
    (force : Bool) : Except PyErr (List (Nat × String × Bool)) :=
  records.enum.foldl
    (fun acc ir =>
      match acc with
      | .error e => .error e
      | .ok visited => .ok (visited ++ tryProcessFormats formats force ir.1 ir.2))
    (.ok [])

/-! ## Auxiliary families for the collision counting argument -/

/-- An injection of bit vectors into source-image names: bit `i` chooses
between the characters `'a'` and `'b'`. -/
def boolStr (f : Fin 161 → Bool) : String :=
  String.mk (List.ofFn fun i => if f i then 'b' else 'a')

/-! ## Supporting lemmas -/

/-- The fuel-based gcd construction agrees with `mkRat` (sanity of the
kernel-computable rational constructor). -/
theorem ratOfNd_eq_mkRat (num : Int) (den : Nat) : ratOfNd num den = mkRat num den := by
  unfold ratOfNd mkRat Rat.normalize
  by_cases h : den = 0
  · simp only [dif_pos h]
  · simp only [dif_neg h]
    refine Rat.ext ?_ ?_ <;>
      simp only [Rat.maybeNormalize_eq,
        (gcdAuxC num.natAbs num.natAbs den (Nat.le_refl _)).2]

/-- Saving at a path makes it exist. -/
theorem storageExists_save (st : Storage) (p : String) (b : List Nat) :
    storageExists (storageSave st p b) p = true := by
  simp [storageSave, storageExists]

/-- Saving at a path stores exactly the given bytes there. -/
theorem storageLookup_save (st : Storage) (p : String) (b : List Nat) :
    storageLookup (storageSave st p b) p = some b := by
  simp [storageSave, storageLookup, List.find?]

/-- Concatenation of `String.mk` values is `String.mk` of the concatenation. -/
theorem stringMk_append (a b : List Char) :
    String.mk a ++ String.mk b = String.mk (a ++ b) := rfl

/-- Appending the empty string is the identity. -/
theorem string_append_empty (t : String) : t ++ "" = t := by
  cases t with
  | mk d =>
    show String.mk d ++ String.mk [] = String.mk d
    rw [stringMk_append]
    simp

/-- `splitext` splits the name into two parts whose concatenation is the
original name (the extension is preserved unchanged). -/
theorem splitext_append (s : String) : (splitext s).1 ++ (splitext s).2 = s := by
  unfold splitext
  cases hdot : splitextIdx s.data with
  | none => exact string_append_empty s
  | some d =>
    show String.mk (s.data.take d) ++ String.mk (s.data.drop d) = s
    rw [stringMk_append, List.take_append_drop]

/-- `rfindIdx` finds nothing when the character does not occur. -/
theorem rfindIdx_eq_none {c : Char} :
    ∀ {l : List Char}, (∀ x ∈ l, x ≠ c) → rfindIdx c l = none := by
  intro l h
  induction l with
  | nil => rfl
  | cons x xs ih =>
    have hx : (x == c) = false := by
      simpa using h x (by simp)
    have hxs := ih (fun y hy => h y (by simp [hy]))
    simp [rfindIdx, hxs, hx]

/-- Names without a dot have an empty extension. -/
theorem splitext_no_dot {s : String} (h : ∀ x ∈ s.data, x ≠ '.') :
    splitext s = (s, "") := by
  have hidx : splitextIdx s.data = none := by
    unfold splitextIdx
    rw [rfindIdx_eq_none h]
  unfold splitext
  rw [hidx]

/-! ## Claims -/

/-- Claim C2 (code bug): the post-delete cleanup hook is supposed to remove
every derivative under the source's shard/prefix; instead
`_clear_generated_files` raises `NameError` on every invocation (`self` is
unbound in the `@staticmethod` body) and leaves the storage — including every
previously generated derivative — exactly as it was. -/
theorem C2_cleanup_crashes (st : Storage) :
    (_clear_generated_files st).1 = st ∧
    (_clear_generated_files st).2 = Except.error PyErr.nameError :=
  ⟨rfl, rfl⟩

/-- Claim C3 (code bug): with an empty list of field filters, `_make_filter`
ends with `_filter = {}` (the `self._filter = None` branch is missing its
`return`, so the dict assignment overwrites it), and `_skip_field` then skips
every field — e.g. the registered field `image` of `testapp.model` — instead
of processing all of them.  The two remaining conjuncts record the behaviour
the dead `None` branch would have produced, and that the second half of the
claim does hold: a filter entry `testapp.model` with an empty field-name list
lets every field of that model through. -/
theorem C3_empty_filter_skips_all :
    _make_filter [] = some [] ∧
    _skip_field (_make_filter []) "testapp.model" "image" = true ∧
    _skip_field none "testapp.model" "image" = false ∧
    _skip_field (_make_filter ["TestApp.Model"]) "testapp.model" "image" = false ∧
    _skip_field (_make_filter ["TestApp.Model.other"]) "testapp.model" "image" = true := by
  decide

/-- Claim C4 counterexample: with a configured PPOI field whose stored
representation is the empty string, `_ppoi` does not fall back to the default
`[0.5, 0.5]` — `''.split('x') == ['']` and `float('')` raises `ValueError`,
which propagates.  This refutes "yields the default point whenever the string
representation is missing, empty, or fails to parse; it never fails for such
inputs". -/
theorem C4_counterexample :
    _ppoi (some "ppoi") "" = Except.error PyErr.valueError ∧
    _ppoi (some "ppoi") "" ≠ Except.ok [ratOfNd 1 2, ratOfNd 1 2] := by
  decide

/-- Claim C4 (amended): PPOI parsing yields the default `(0.5, 0.5)` only
when no PPOI field is configured (the representation is missing); when a
PPOI field is configured, the stored string is split on `'x'` and each piece
parsed as a float — a parseable representation yields those floats, while an
empty or unparseable representation raises `ValueError` instead of
defaulting. -/
theorem C4_ppoi_amended :
    (∀ v : String, _ppoi none v = Except.ok [ratOfNd 1 2, ratOfNd 1 2]) ∧
    _ppoi (some "ppoi") "0.5x0.5" = Except.ok [ratOfNd 1 2, ratOfNd 1 2] ∧
    _ppoi (some "ppoi") "0.25x0.75" = Except.ok [ratOfNd 1 4, ratOfNd 3 4] ∧
    _ppoi (some "ppoi") "" = Except.error PyErr.valueError ∧
    _ppoi (some "ppoi") "0.5xabc" = Except.error PyErr.valueError := by
  refine ⟨fun v => rfl, ?_, ?_, ?_, ?_⟩ <;> decide

/-- Claim C7: the path resolver is a pure function — two calls on equal
inputs (source name, processor spec, PPOI) return the identical path. -/
theorem C7_determinism (n1 n2 : String) (s1 s2 : List String) (p1 p2 : List Rat)
    (hn : n1 = n2) (hs : s1 = s2) (hp : p1 = p2) :
    _processed_name n1 s1 p1 = _processed_name n2 s2 p2 := by
  subst hn; subst hs; subst hp; rfl

/-- Witness for C7 at the spec's concrete scenario. -/
theorem C7_determinism_witness :
    ("photos/a.jpg" : String) = "photos/a.jpg" ∧
    (["thumbnail"] : List String) = ["thumbnail"] ∧
    ([ratOfNd 1 2, ratOfNd 1 2] : List Rat) = [ratOfNd 1 2, ratOfNd 1 2] ∧
    _processed_name "photos/a.jpg" ["thumbnail"] [ratOfNd 1 2, ratOfNd 1 2] =
      _processed_name "photos/a.jpg" ["thumbnail"] [ratOfNd 1 2, ratOfNd 1 2] :=
  ⟨rfl, rfl, rfl,
   C7_determinism "photos/a.jpg" "photos/a.jpg" ["thumbnail"] ["thumbnail"]
     [ratOfNd 1 2, ratOfNd 1 2] [ratOfNd 1 2, ratOfNd 1 2] rfl rfl rfl⟩

/-- The inner fold of `handleField` never leaves the `ok` state and
accumulates every record's attempts in order. -/
theorem handleField_go (formats : List String) (force : Bool)
    (l : List (Nat × BatchRecord)) (acc : List (Nat × String × Bool)) :
    l.foldl
      (fun (acc : Except PyErr (List (Nat × String × Bool))) (ir : Nat × BatchRecord) =>
        match acc with
        | .error e => .error e
        | .ok visited => .ok (visited ++ tryProcessFormats formats force ir.1 ir.2))
      (Except.ok acc) =
    Except.ok (acc ++ l.flatMap fun ir => tryProcessFormats formats force ir.1 ir.2) := by
  induction l generalizing acc with
  | nil => simp
  | cons x xs ih => simp [ih, List.append_assoc]

/-- The attempts of one record cover exactly its formats (when its file name
is non-empty), whatever the processing outcomes were. -/
theorem tryProcessFormats_keys (formats : List String) (force : Bool) (i : Nat)
    (r : BatchRecord) :
    (tryProcessFormats formats force i r).map (fun x => (x.1, x.2.1)) =
      if r.name ≠ "" then formats.map (fun k => (i, k)) else [] := by
  unfold tryProcessFormats
  split
  · rw [List.map_map]
    apply List.map_congr_left
    intro k _
    cases h : r.procOutcome k force <;> simp [h]
  · simp

/-- Claim C9: the record loop of the batch command completes with `ok` for
every record list and every pattern of per-record, per-format outcomes
(failures are swallowed by `except Exception: pass`), and the attempted
(record, format) pairs are exactly all formats of all records with a
non-empty source image — no failure aborts the batch or skips later records
or formats. -/
theorem C9_batch_resilience (formats : List String) (records : List BatchRecord)
    (force : Bool) :
    handleField formats records force =
      Except.ok (records.enum.flatMap fun ir => tryProcessFormats formats force ir.1 ir.2) ∧
    (records.enum.flatMap fun ir => tryProcessFormats formats force ir.1 ir.2).map
        (fun x => (x.1, x.2.1)) =
      records.enum.flatMap fun ir =>
        if ir.2.name ≠ "" then formats.map (fun k => (ir.1, k)) else [] := by
  constructor
  · unfold handleField
    simpa using handleField_go formats force records.enum []
  · induction records.enum with
    | nil => rfl
    | cons x xs ih => simp [List.flatMap_cons, ih, tryProcessFormats_keys]

/-- Claim C10: accessing a declared format name on an image field file
computes the storage URL of the resolved derivative path, caches it in the
instance dictionary (one `storage.url` consultation), a second access returns
the identical cached value without consulting storage again, and accessing a
name that is neither an ordinary attribute nor a declared format raises
`AttributeError`. -/
theorem C10_getattr_memoizes (storage_url : String → String)
    (formats : List (String × List String)) (name : String) (ppoi : List Rat)
    (dict : List (String × String)) (item : String) (procs : List String)
    (hd : dict.find? (fun e => e.1 == item) = none)
    (hf : formats.find? (fun e => e.1 == item) = some (item, procs)) :
    getattrLookup storage_url formats name ppoi dict item =
      Except.ok (storage_url (_processed_name name procs ppoi),
        (item, storage_url (_processed_name name procs ppoi)) :: dict,
        [_processed_name name procs ppoi]) ∧
    getattrLookup storage_url formats name ppoi
        ((item, storage_url (_processed_name name procs ppoi)) :: dict) item =
      Except.ok (storage_url (_processed_name name procs ppoi),
        (item, storage_url (_processed_name name procs ppoi)) :: dict, []) ∧
    (∀ item2 : String, dict.find? (fun e => e.1 == item2) = none →
      formats.find? (fun e => e.1 == item2) = none →
      getattrLookup storage_url formats name ppoi dict item2 =
        Except.error PyErr.attributeError) := by
  refine ⟨?_, ?_, ?_⟩
  · simp [getattrLookup, hd, hf]
  · simp [getattrLookup, List.find?]
  · intro item2 h1 h2
    simp [getattrLookup, h1, h2]

/-- Witness for C10: format `thumb`, empty instance dictionary. -/
theorem C10_getattr_memoizes_witness :
    ([] : List (String × String)).find? (fun e => e.1 == "thumb") = none ∧
    ([("thumb", ["thumbnail"])] : List (String × List String)).find?
        (fun e => e.1 == "thumb") = some ("thumb", ["thumbnail"]) ∧
    (getattrLookup (fun p => p) [("thumb", ["thumbnail"])] "photos/a.jpg"
        [ratOfNd 1 2, ratOfNd 1 2] [] "thumb" =
      Except.ok (_processed_name "photos/a.jpg" ["thumbnail"] [ratOfNd 1 2, ratOfNd 1 2],
        [("thumb", _processed_name "photos/a.jpg" ["thumbnail"] [ratOfNd 1 2, ratOfNd 1 2])],
        [_processed_name "photos/a.jpg" ["thumbnail"] [ratOfNd 1 2, ratOfNd 1 2]]) ∧
    getattrLookup (fun p => p) [("thumb", ["thumbnail"])] "photos/a.jpg"
        [ratOfNd 1 2, ratOfNd 1 2]
        [("thumb", _processed_name "photos/a.jpg" ["thumbnail"] [ratOfNd 1 2, ratOfNd 1 2])]
        "thumb" =
      Except.ok (_processed_name "photos/a.jpg" ["thumbnail"] [ratOfNd 1 2, ratOfNd 1 2],
        [("thumb", _processed_name "photos/a.jpg" ["thumbnail"] [ratOfNd 1 2, ratOfNd 1 2])],
        []) ∧
    (∀ item2 : String, ([] : List (String × String)).find? (fun e => e.1 == item2) = none →
      ([("thumb", ["thumbnail"])] : List (String × List String)).find?
          (fun e => e.1 == item2) = none →
      getattrLookup (fun p => p) [("thumb", ["thumbnail"])] "photos/a.jpg"
          [ratOfNd 1 2, ratOfNd 1 2] [] item2 =
        Except.error PyErr.attributeError)) :=
  ⟨rfl, by decide,
   C10_getattr_memoizes (fun p => p) [("thumb", ["thumbnail"])] "photos/a.jpg"
     [ratOfNd 1 2, ratOfNd 1 2] [] "thumb" ["thumbnail"] rfl (by decide)⟩

/-- Claim C5: with `force=false` and the derivative absent, the first
`process` call performs the full open/decode/pipeline/encode sequence with
exactly one delete-then-save write at the resolved path; the second call
performs the existence check only — it does not open the source, touches no
other storage operation, leaves the storage unchanged, and returns. -/
theorem C5_idempotence {Img : Type} (decodeImage : List Nat → Option (Img × String))
    (handler : Img → Ctx → Img × Ctx)
    (encodeImage : Img → String → List (String × String) → List Nat)
    (name : String) (processors : List String) (ppoi : List Rat)
    (sourceBytes : List Nat) (st : Storage) (img : Img) (fmt : String)
    (h0 : storageExists st (_processed_name name processors ppoi) = false)
    (hdec : decodeImage sourceBytes = some (img, fmt)) :
    (process decodeImage handler encodeImage name processors ppoi sourceBytes false st).ops =
      [Op.existsCheck (_processed_name name processors ppoi), Op.openSrc, Op.decodeOp,
       Op.pipelineOp, Op.encodeOp, Op.deleteOp (_processed_name name processors ppoi),
       Op.saveOp (_processed_name name processors ppoi)] ∧
    (process decodeImage handler encodeImage name processors ppoi sourceBytes false
        (process decodeImage handler encodeImage name processors ppoi sourceBytes
          false st).storage).ops =
      [Op.existsCheck (_processed_name name processors ppoi)] ∧
    (process decodeImage handler encodeImage name processors ppoi sourceBytes false
        (process decodeImage handler encodeImage name processors ppoi sourceBytes
          false st).storage).storage =
      (process decodeImage handler encodeImage name processors ppoi sourceBytes
        false st).storage ∧
    (process decodeImage handler encodeImage name processors ppoi sourceBytes false
        (process decodeImage handler encodeImage name processors ppoi sourceBytes
          false st).storage).result = Except.ok () := by
  have hfirst : process decodeImage handler encodeImage name processors ppoi sourceBytes
      false st =
      ⟨storageSave (storageDelete st (_processed_name name processors ppoi))
         (_processed_name name processors ppoi)
         (encodeImage (handler img ⟨ppoi, []⟩).1 fmt (handler img ⟨ppoi, []⟩).2.save_kwargs),
       [Op.existsCheck (_processed_name name processors ppoi), Op.openSrc, Op.decodeOp,
        Op.pipelineOp, Op.encodeOp, Op.deleteOp (_processed_name name processors ppoi),
        Op.saveOp (_processed_name name processors ppoi)],
       Except.ok ()⟩ := by
    simp [process, h0, hdec]
  have hsecond : process decodeImage handler encodeImage name processors ppoi sourceBytes
      false
      (storageSave (storageDelete st (_processed_name name processors ppoi))
        (_processed_name name processors ppoi)
        (encodeImage (handler img ⟨ppoi, []⟩).1 fmt (handler img ⟨ppoi, []⟩).2.save_kwargs)) =
      ⟨storageSave (storageDelete st (_processed_name name processors ppoi))
         (_processed_name name processors ppoi)
         (encodeImage (handler img ⟨ppoi, []⟩).1 fmt (handler img ⟨ppoi, []⟩).2.save_kwargs),
       [Op.existsCheck (_processed_name name processors ppoi)], Except.ok ()⟩ := by
    simp [process, storageExists_save]
  simp [hfirst, hsecond]

/-- Witness for C5: fresh storage, a decoder that succeeds on the empty
source bytes. -/
theorem C5_idempotence_witness :
    storageExists []
      (_processed_name "photos/a.jpg" ["thumbnail"] [ratOfNd 1 2, ratOfNd 1 2]) = false ∧
    (fun _ : List Nat => some ((0 : Nat), "JPEG")) [] = some ((0 : Nat), "JPEG") ∧
    ((process (fun _ : List Nat => some ((0 : Nat), "JPEG")) (fun i c => (i, c))
        (fun _ _ _ => [0]) "photos/a.jpg" ["thumbnail"] [ratOfNd 1 2, ratOfNd 1 2]
        [] false []).ops =
      [Op.existsCheck (_processed_name "photos/a.jpg" ["thumbnail"] [ratOfNd 1 2, ratOfNd 1 2]),
       Op.openSrc, Op.decodeOp, Op.pipelineOp, Op.encodeOp,
       Op.deleteOp (_processed_name "photos/a.jpg" ["thumbnail"] [ratOfNd 1 2, ratOfNd 1 2]),
       Op.saveOp (_processed_name "photos/a.jpg" ["thumbnail"] [ratOfNd 1 2, ratOfNd 1 2])] ∧
    (process (fun _ : List Nat => some ((0 : Nat), "JPEG")) (fun i c => (i, c))
        (fun _ _ _ => [0]) "photos/a.jpg" ["thumbnail"] [ratOfNd 1 2, ratOfNd 1 2] [] false
        (process (fun _ : List Nat => some ((0 : Nat), "JPEG")) (fun i c => (i, c))
          (fun _ _ _ => [0]) "photos/a.jpg" ["thumbnail"] [ratOfNd 1 2, ratOfNd 1 2]
          [] false []).storage).ops =
      [Op.existsCheck
        (_processed_name "photos/a.jpg" ["thumbnail"] [ratOfNd 1 2, ratOfNd 1 2])] ∧
    (process (fun _ : List Nat => some ((0 : Nat), "JPEG")) (fun i c => (i, c))
        (fun _ _ _ => [0]) "photos/a.jpg" ["thumbnail"] [ratOfNd 1 2, ratOfNd 1 2] [] false
        (process (fun _ : List Nat => some ((0 : Nat), "JPEG")) (fun i c => (i, c))
          (fun _ _ _ => [0]) "photos/a.jpg" ["thumbnail"] [ratOfNd 1 2, ratOfNd 1 2]
          [] false []).storage).storage =
      (process (fun _ : List Nat => some ((0 : Nat), "JPEG")) (fun i c => (i, c))
        (fun _ _ _ => [0]) "photos/a.jpg" ["thumbnail"] [ratOfNd 1 2, ratOfNd 1 2]
        [] false []).storage ∧
    (process (fun _ : List Nat => some ((0 : Nat), "JPEG")) (fun i c => (i, c))
        (fun _ _ _ => [0]) "photos/a.jpg" ["thumbnail"] [ratOfNd 1 2, ratOfNd 1 2] [] false
        (process (fun _ : List Nat => some ((0 : Nat), "JPEG")) (fun i c => (i, c))
          (fun _ _ _ => [0]) "photos/a.jpg" ["thumbnail"] [ratOfNd 1 2, ratOfNd 1 2]
          [] false []).storage).result = Except.ok ()) :=
  ⟨rfl, rfl,
   C5_idempotence (fun _ : List Nat => some ((0 : Nat), "JPEG")) (fun i c => (i, c))
     (fun _ _ _ => [0]) "photos/a.jpg" ["thumbnail"] [ratOfNd 1 2, ratOfNd 1 2]
     [] [] 0 "JPEG" rfl rfl⟩

/-- Claim C6: with `force=true`, `process` runs the full
open/decode/pipeline/encode sequence unconditionally (the existence check is
not even performed — `not force and ...` short-circuits), deletes whatever is
at the resolved path before writing, and stores the freshly encoded bytes
there — for every starting storage, including one that already has a file at
that path. -/
theorem C6_force_override {Img : Type} (decodeImage : List Nat → Option (Img × String))
    (handler : Img → Ctx → Img × Ctx)
    (encodeImage : Img → String → List (String × String) → List Nat)
    (name : String) (processors : List String) (ppoi : List Rat)
    (sourceBytes : List Nat) (st : Storage) (img : Img) (fmt : String)
    (hdec : decodeImage sourceBytes = some (img, fmt)) :
    (process decodeImage handler encodeImage name processors ppoi sourceBytes true st).ops =
      [Op.openSrc, Op.decodeOp, Op.pipelineOp, Op.encodeOp,
       Op.deleteOp (_processed_name name processors ppoi),
       Op.saveOp (_processed_name name processors ppoi)] ∧
    storageLookup
        (process decodeImage handler encodeImage name processors ppoi sourceBytes
          true st).storage
        (_processed_name name processors ppoi) =
      some (encodeImage (handler img ⟨ppoi, []⟩).1 fmt
        (handler img ⟨ppoi, []⟩).2.save_kwargs) ∧
    (process decodeImage handler encodeImage name processors ppoi sourceBytes
      true st).result = Except.ok () := by
  refine ⟨?_, ?_, ?_⟩ <;> simp [process, hdec, storageLookup_save]

/-- Witness for C6: the starting storage already holds a (stale) file at the
resolved path. -/
theorem C6_force_override_witness :
    (fun _ : List Nat => some ((0 : Nat), "JPEG")) [] = some ((0 : Nat), "JPEG") ∧
    ((process (fun _ : List Nat => some ((0 : Nat), "JPEG")) (fun i c => (i, c))
        (fun _ _ _ => [0]) "photos/a.jpg" ["thumbnail"] [ratOfNd 1 2, ratOfNd 1 2] [] true
        [(_processed_name "photos/a.jpg" ["thumbnail"] [ratOfNd 1 2, ratOfNd 1 2], [7])]).ops =
      [Op.openSrc, Op.decodeOp, Op.pipelineOp, Op.encodeOp,
       Op.deleteOp (_processed_name "photos/a.jpg" ["thumbnail"] [ratOfNd 1 2, ratOfNd 1 2]),
       Op.saveOp (_processed_name "photos/a.jpg" ["thumbnail"] [ratOfNd 1 2, ratOfNd 1 2])] ∧
    storageLookup
        (process (fun _ : List Nat => some ((0 : Nat), "JPEG")) (fun i c => (i, c))
          (fun _ _ _ => [0]) "photos/a.jpg" ["thumbnail"] [ratOfNd 1 2, ratOfNd 1 2] [] true
          [(_processed_name "photos/a.jpg" ["thumbnail"] [ratOfNd 1 2, ratOfNd 1 2],
            [7])]).storage
        (_processed_name "photos/a.jpg" ["thumbnail"] [ratOfNd 1 2, ratOfNd 1 2]) =
      some [0] ∧
    (process (fun _ : List Nat => some ((0 : Nat), "JPEG")) (fun i c => (i, c))
        (fun _ _ _ => [0]) "photos/a.jpg" ["thumbnail"] [ratOfNd 1 2, ratOfNd 1 2] [] true
        [(_processed_name "photos/a.jpg" ["thumbnail"] [ratOfNd 1 2, ratOfNd 1 2],
          [7])]).result = Except.ok ()) :=
  ⟨rfl,
   C6_force_override (fun _ : List Nat => some ((0 : Nat), "JPEG")) (fun i c => (i, c))
     (fun _ _ _ => [0]) "photos/a.jpg" ["thumbnail"] [ratOfNd 1 2, ratOfNd 1 2] []
     [(_processed_name "photos/a.jpg" ["thumbnail"] [ratOfNd 1 2, ratOfNd 1 2], [7])]
     0 "JPEG" rfl⟩


/-- The base64url encoding of any SHA-1 digest has 27 characters (the 2-char
shard plus the 25-char per-source remainder for `h1`, and the whole of `h2`). -/
theorem urlhash_data_length (s : String) : (urlhash s).data.length = 27 := by
  show (b64encode (sha1 (utf8 s))).length = 27
  generalize sha1Words (utf8 s) = st
  simp [sha1, digestFins, wordFins, b64encode]

/-- `urlhash` always returns a 27-character string. -/
theorem urlhash_length (s : String) : (urlhash s).length = 27 :=
  urlhash_data_length s

/-- Claim C1: the resolved derivative path has exactly the form
`__processed__/<h1[:2]>/<h1[2:]>_<h2><ext>`, where `h1` is the unpadded
base64url encoding of the SHA-1 digest of the UTF-8 source name, `h2` the
same hash of the serialized processor spec joined with the textual rendering
of the PPOI, and `<ext>` the source name's extension; both hashes are 27
characters (so the shard is exactly 2 characters), and the extension is the
unchanged second component of `os.path.splitext`, whose two components
reassemble the source name. -/
theorem C1_path_form (n : String) (ps : List String) (pp : List Rat) :
    _processed_name n ps pp =
      String.mk ("__processed__/".data ++ (urlhash n).data.take 2 ++ "/".data ++
        (urlhash n).data.drop 2 ++ "_".data ++
        (urlhash (specSerialization ps ++ "|" ++ ppoiRendering pp)).data ++
        ((splitext n).2).data) ∧
    urlhash n = String.mk (b64encode (sha1 (utf8 n))) ∧
    (urlhash n).length = 27 ∧
    (urlhash (specSerialization ps ++ "|" ++ ppoiRendering pp)).length = 27 ∧
    (splitext n).1 ++ (splitext n).2 = n :=
  ⟨rfl, rfl, urlhash_length n, urlhash_length _, splitext_append n⟩

/-- Sextet values round-trip through the alphabet (checked for all 64). -/
theorem b64v_b64c_fin : ∀ t : Fin 64, b64v (b64alphabet.getD t.val 'A') = t.val := by decide

/-- `b64v` inverts `b64c` modulo 64. -/
theorem b64v_b64c (n : Nat) : b64v (b64c n) = n % 64 := by
  have h := b64v_b64c_fin ⟨n % 64, Nat.mod_lt _ (by norm_num)⟩
  simpa [b64c] using h

/-- The base64url decoder inverts the encoder on byte lists. -/
theorem b64dec_b64encode : ∀ (l : List Nat), (∀ b ∈ l, b < 256) → b64dec (b64encode l) = l := by
  intro l
  induction l using b64encode.induct with
  | case1 b0 b1 b2 rest ih =>
    intro h
    have hb0 : b0 < 256 := h b0 (by simp)
    have hb1 : b1 < 256 := h b1 (by simp)
    have hb2 : b2 < 256 := h b2 (by simp)
    simp only [b64encode, b64dec, b64v_b64c]
    rw [ih (fun b hb => h b (by simp [hb]))]
    simp only [List.cons.injEq, and_true]
    omega
  | case2 b0 b1 =>
    intro h
    have hb0 : b0 < 256 := h b0 (by simp)
    have hb1 : b1 < 256 := h b1 (by simp)
    simp only [b64encode, b64dec, b64v_b64c]
    simp only [List.cons.injEq, and_true]
    omega
  | case3 b0 =>
    intro h
    have hb0 : b0 < 256 := h b0 (by simp)
    simp only [b64encode, b64dec, b64v_b64c]
    simp only [List.cons.injEq, and_true]
    omega
  | case4 => intro h; rfl

/-- The base64url encoder is injective on byte lists. -/
theorem b64encode_inj {l1 l2 : List Nat} (h1 : ∀ b ∈ l1, b < 256)
    (h2 : ∀ b ∈ l2, b < 256) (he : b64encode l1 = b64encode l2) : l1 = l2 := by
  have e1 := b64dec_b64encode l1 h1
  rw [he, b64dec_b64encode l2 h2] at e1
  exact e1.symm

/-- Every SHA-1 digest byte is below 256. -/
theorem sha1_mem_lt (msg : List Nat) : ∀ b ∈ sha1 msg, b < 256 := by
  intro b hb
  simp only [sha1, List.mem_map] at hb
  obtain ⟨f, _, rfl⟩ := hb
  exact f.isLt

/-- Equal digest vectors give equal digest byte lists. -/
theorem digestFins_eq_of_digestVec_eq {st1 st2 : Sha1State}
    (h : digestVec st1 = digestVec st2) : digestFins st1 = digestFins st2 :=
  congrArg Subtype.val h

/-- Counting argument: there are `2^161` names built from 161 `a`/`b`
characters but only `2^160` possible SHA-1 digests, so two distinct such
names share a digest. -/
theorem sha1_collision_names :
    ∃ f g : Fin 161 → Bool, f ≠ g ∧
      sha1 (utf8 (boolStr f)) = sha1 (utf8 (boolStr g)) := by
  have hcard : Fintype.card (Mathlib.Vector (Fin 256) 20) <
      Fintype.card (Fin 161 → Bool) := by
    rw [card_vector]
    rw [Fintype.card_fun]
    simp only [Fintype.card_fin, Fintype.card_bool]
    norm_num
  obtain ⟨f, g, hne, heq⟩ :=
    Fintype.exists_ne_map_eq_of_card_lt
      (fun f : Fin 161 → Bool => digestVec (sha1Words (utf8 (boolStr f)))) hcard
  exact ⟨f, g, hne,
    congrArg (List.map Fin.val) (digestFins_eq_of_digestVec_eq heq)⟩

/-- `boolStr` is injective. -/
theorem boolStr_inj {f g : Fin 161 → Bool} (h : boolStr f = boolStr g) : f = g := by
  have hd : (List.ofFn fun i => if f i then 'b' else 'a') =
      (List.ofFn fun i => if g i then 'b' else 'a') := congrArg String.data h
  have hfn := List.ofFn_injective hd
  funext i
  have hi := congrFun hfn i
  by_cases hf : f i <;> by_cases hg : g i <;> simp [hf, hg] at hi ⊢

/-- `boolStr` names contain only `'a'` and `'b'`. -/
theorem boolStr_no_char (f : Fin 161 → Bool) {c : Char} (hc1 : c ≠ 'a') (hc2 : c ≠ 'b') :
    ∀ x ∈ (boolStr f).data, x ≠ c := by
  intro x hx
  simp only [boolStr, List.mem_ofFn] at hx
  obtain ⟨i, rfl⟩ := hx
  by_cases hf : f i <;> simp [hf]
  · exact fun hh => hc2 hh.symm
  · exact fun hh => hc1 hh.symm

/-- All `boolStr` names have length 161. -/
theorem boolStr_length (f : Fin 161 → Bool) : (boolStr f).length = 161 := by
  show (List.ofFn fun i => if f i then 'b' else 'a').length = 161
  rw [List.length_ofFn]

/-- The character list of a resolved path, segment by segment. -/
theorem processed_name_data (n : String) (ps : List String) (pp : List Rat) :
    (_processed_name n ps pp).data =
      "__processed__/".data ++ (urlhash n).data.take 2 ++ "/".data ++
      (urlhash n).data.drop 2 ++ "_".data ++
      (urlhash (specSerialization ps ++ "|" ++ ppoiRendering pp)).data ++
      ((splitext n).2).data := rfl

/-- The resolved path depends on the source name only through `urlhash` and
the extension. -/
theorem processed_name_congr {n1 n2 : String} (ps : List String) (pp : List Rat)
    (hu : urlhash n1 = urlhash n2) (he : (splitext n1).2 = (splitext n2).2) :
    _processed_name n1 ps pp = _processed_name n2 ps pp := by
  unfold _processed_name
  rw [hu, he]

/-- Claim C8 counterexample: two distinct source names of equal length (hence
differing only in an equal-length suffix after their common prefix) whose
resolved derivative paths coincide — SHA-1 has only `2^160` digests, so path
sensitivity cannot hold for all inputs. -/
theorem C8_counterexample :
    ∃ n1 n2 : String, n1.length = n2.length ∧ n1 ≠ n2 ∧
      _processed_name n1 ["thumbnail"] [ratOfNd 1 2, ratOfNd 1 2] =
        _processed_name n2 ["thumbnail"] [ratOfNd 1 2, ratOfNd 1 2] := by
  obtain ⟨f, g, hne, heq⟩ := sha1_collision_names
  refine ⟨boolStr f, boolStr g, ?_, ?_, ?_⟩
  · rw [boolStr_length, boolStr_length]
  · exact fun h => hne (boolStr_inj h)
  · have hu : urlhash (boolStr f) = urlhash (boolStr g) := by
      unfold urlhash
      rw [heq]
    have he1 : splitext (boolStr f) = (boolStr f, "") :=
      splitext_no_dot (boolStr_no_char f (by decide) (by decide))
    have he2 : splitext (boolStr g) = (boolStr g, "") :=
      splitext_no_dot (boolStr_no_char g (by decide) (by decide))
    exact processed_name_congr _ _ hu (by rw [he1, he2])

/-- Claim C8 (amended): changing the processor spec or the PPOI changes the
resolved path whenever the SHA-1 digest of the serialized recipe/PPOI text
changes, and changing the source name (e.g. only an equal-length suffix of
it) changes the path whenever the SHA-1 digest of the name changes while the
extension stays equal — the full name is hashed, so there are no truncation
collisions, but sensitivity holds only up to SHA-1 collisions. -/
theorem C8_sensitivity_amended :
    (∀ (name : String) (ps1 ps2 : List String) (pp1 pp2 : List Rat),
      sha1 (utf8 (specSerialization ps1 ++ "|" ++ ppoiRendering pp1)) ≠
        sha1 (utf8 (specSerialization ps2 ++ "|" ++ ppoiRendering pp2)) →
      _processed_name name ps1 pp1 ≠ _processed_name name ps2 pp2) ∧
    (∀ (n1 n2 : String) (ps : List String) (pp : List Rat),
      sha1 (utf8 n1) ≠ sha1 (utf8 n2) →
      (splitext n1).2 = (splitext n2).2 →
      _processed_name n1 ps pp ≠ _processed_name n2 ps pp) := by
  constructor
  · intro name ps1 ps2 pp1 pp2 hdig heq
    apply hdig
    have hdata := congrArg String.data heq
    rw [processed_name_data, processed_name_data] at hdata
    simp only [List.append_assoc] at hdata
    replace hdata := List.append_cancel_left hdata
    replace hdata := List.append_cancel_left hdata
    replace hdata := List.append_cancel_left hdata
    replace hdata := List.append_cancel_left hdata
    replace hdata := List.append_cancel_left hdata
    replace hdata := List.append_cancel_right hdata
    exact b64encode_inj (sha1_mem_lt _) (sha1_mem_lt _) hdata
  · intro n1 n2 ps pp hdig hext heq
    apply hdig
    have hdata := congrArg String.data heq
    rw [processed_name_data, processed_name_data] at hdata
    simp only [List.append_assoc] at hdata
    rw [hext] at hdata
    replace hdata := List.append_cancel_left hdata
    have hlen : ((urlhash n1).data.take 2).length = ((urlhash n2).data.take 2).length := by
      rw [List.length_take, List.length_take, urlhash_data_length, urlhash_data_length]
    obtain ⟨htake, hrest⟩ := List.append_inj hdata hlen
    replace hrest := List.append_cancel_left hrest
    have hlen2 : ((urlhash n1).data.drop 2).length = ((urlhash n2).data.drop 2).length := by
      rw [List.length_drop, List.length_drop, urlhash_data_length, urlhash_data_length]
    obtain ⟨hdrop, _⟩ := List.append_inj hrest hlen2
    have hfull : (urlhash n1).data = (urlhash n2).data := by
      rw [← List.take_append_drop 2 (urlhash n1).data, htake, hdrop,
        List.take_append_drop]
    exact b64encode_inj (sha1_mem_lt _) (sha1_mem_lt _) hfull

set_option maxRecDepth 40000 in
/-- Witness for the amended C8 at the spec's concrete scenario: moving the
PPOI from `(0.5, 0.5)` to `(0.2, 0.8)` changes the recipe digest, hence the
path. -/
theorem C8_sensitivity_amended_witness :
    sha1 (utf8 (specSerialization ["thumbnail"] ++ "|" ++
        ppoiRendering [ratOfNd 1 2, ratOfNd 1 2])) ≠
      sha1 (utf8 (specSerialization ["thumbnail"] ++ "|" ++
        ppoiRendering [ratOfNd 1 5, ratOfNd 4 5])) ∧
    _processed_name "photos/a.jpg" ["thumbnail"] [ratOfNd 1 2, ratOfNd 1 2] ≠
      _processed_name "photos/a.jpg" ["thumbnail"] [ratOfNd 1 5, ratOfNd 4 5] := by
  have h : sha1 (utf8 (specSerialization ["thumbnail"] ++ "|" ++
      ppoiRendering [ratOfNd 1 2, ratOfNd 1 2])) ≠
      sha1 (utf8 (specSerialization ["thumbnail"] ++ "|" ++
        ppoiRendering [ratOfNd 1 5, ratOfNd 4 5])) := by decide
  exact ⟨h, C8_sensitivity_amended.1 "photos/a.jpg" ["thumbnail"] ["thumbnail"]
    [ratOfNd 1 2, ratOfNd 1 2] [ratOfNd 1 5, ratOfNd 4 5] h⟩

end Imagefield

